import Mathlib

/-!
Verification development for the Parenta captive-portal parental-control
backend (Go).  The definitions below are a shallow embedding of the Go
source:

* `internal/models/child.go`, `session.go`, `schedule.go`, `user.go`
  become Lean structures with the same fields;
* `internal/storage/storage.go` becomes pure functions over an in-memory
  `Storage` record (the JSON file persistence layer is identified with
  the in-memory state: every mutating Go method persists the whole
  collection before returning, so store state and persisted state agree);
* `internal/services/ticker.go` (the reconciliation loop body) and the
  FAS handler (`HandleFAS` / `parseFASData` / `HandleAuth`) become pure
  functions that take the ambient inputs of the Go code (wall-clock time,
  the random session id, the bcrypt password check, the error behaviour
  of the external `ndsctl` tool) as explicit parameters and return the
  updated store together with the list of `ndsctl` invocations.

Modelling conventions:
* `time.Time` values are modelled as `Nat` seconds since an epoch; the Go
  zero value of `time.Time` (tested with `IsZero`) corresponds to `0`.
  Go computes `int(now.Sub(x).Minutes())`, i.e. truncation toward zero of
  the elapsed minutes; for `now ≥ x` this is `(now - x) / 60` on `Nat`,
  and for a clock that ran backwards Go would produce a non-positive
  value, which the ticker treats exactly like the `0` produced by
  truncated `Nat` subtraction (the only use is the test `minutesToAdd > 0`).
* Go `int` counters (quota and usage minutes) are modelled as `Int`.
* Go strings are compared byte-wise; all strings relevant to the claims
  are ASCII, where byte-wise and `Char`-wise lexicographic comparison
  agree, so Go `<=` / `>=` on strings is modelled by `String` order.
* bcrypt password checking (`services.CheckPassword`) is an external
  library call and is passed in as an opaque `checkPassword` function.
* the base64 codec models Go's `encoding/base64` `StdEncoding` on ASCII
  payloads: the standard alphabet, mandatory `=` padding at the end of
  the input only, and rejection of any character outside the alphabet.
-/

namespace Parenta

/-- Device (models/child.go): a MAC-bound device of a child. -/
structure Device where
  mac : String
  name : String
  firstSeen : Nat
deriving Repr, DecidableEq

/-- Child (models/child.go): a child user profile. -/
structure Child where
  id : String
  username : String
  passwordHash : String
  name : String
  dailyQuotaMin : Int
  usedTodayMin : Int
  filterMode : String
  scheduleID : String
  devices : List Device
  lastResetDate : String
  isActive : Bool
  createdAt : Nat
  updatedAt : Nat
deriving Repr, DecidableEq

/-- Child.RemainingMinutes: remaining quota for today, floored at 0. -/
def Child.RemainingMinutes (c : Child) : Int :=
  let remaining := c.dailyQuotaMin - c.usedTodayMin
  if remaining < 0 then 0 else remaining

/-- Child.HasDevice: whether a MAC is registered to this child. -/
def Child.HasDevice (c : Child) (mac : String) : Bool :=
  c.devices.any (fun d => d.mac == mac)

/-- Child.AddDevice: append a new device unless the MAC is already known.
The Go code stamps `FirstSeen` with `time.Now()`, passed here as `now`. -/
def Child.AddDevice (c : Child) (mac name : String) (now : Nat) : Child :=
  if c.HasDevice mac then c
  else { c with devices := c.devices ++ [{ mac := mac, name := name, firstSeen := now }] }

/-- Session (models/session.go): an internet session record. -/
structure Session where
  id : String
  childID : String
  childName : String
  mac : String
  ip : String
  startedAt : Nat
  lastTickAt : Nat
  isActive : Bool
  sessionToken : String
deriving Repr, DecidableEq

/-- TimeBlock (models/schedule.go): a time period within a schedule. -/
structure TimeBlock where
  dayOfWeek : Int
  startTime : String
  endTime : String
  filterMode : String
deriving Repr, DecidableEq

/-- Schedule (models/schedule.go): a weekly time schedule. -/
structure Schedule where
  id : String
  name : String
  timeBlocks : List TimeBlock
  isDefault : Bool
  createdAt : Nat
  updatedAt : Nat
deriving Repr, DecidableEq

/-- Schedule.IsAllowedNow: whether the given instant falls in any block of
the schedule.  The Go method reads `time.Now()` and derives
`int(now.Weekday())` and `now.Format("15:04")`; those two ambient values
are the explicit `dayOfWeek` and `currentTime` parameters here.  The Go
loop returns `true` at the first block with matching day and
`currentTime >= block.StartTime && currentTime <= block.EndTime`,
which is exactly `List.any`. -/
def Schedule.IsAllowedNow (s : Schedule) (dayOfWeek : Int) (currentTime : String) : Bool :=
  s.timeBlocks.any (fun block =>
    block.dayOfWeek == dayOfWeek &&
      (decide (block.startTime ≤ currentTime) && decide (currentTime ≤ block.endTime)))

/-- User (models/user.go): a parent/admin user. -/
structure User where
  id : String
  username : String
  passwordHash : String
  displayName : String
  role : String
  forcePasswordChange : Bool
  createdAt : Nat
  updatedAt : Nat
deriving Repr, DecidableEq

/-- FilterRule (models/filter.go): a domain filtering rule. -/
structure FilterRule where
  id : String
  domain : String
  ruleType : String
  category : String
  createdAt : Nat
deriving Repr, DecidableEq

/-- Storage (storage/storage.go): the in-memory cache of the five record
collections.  Every mutating method persists the whole affected
collection before returning, so the persisted state is identified with
this record. -/
structure Storage where
  admins : List User
  children : List Child
  sessions : List Session
  schedules : List Schedule
  filters : List FilterRule
deriving Repr, DecidableEq

/-- The save methods of storage.go all share one shape: replace the first
element with a matching ID, or append when none matches. -/
def upsertBy {α : Type} (key : α → String) (item : α) : List α → List α
  | [] => [item]
  | x :: xs => if key x == key item then item :: xs else x :: upsertBy key item xs

/-- Storage.GetAdminByUsername. -/
def Storage.GetAdminByUsername (s : Storage) (username : String) : Option User :=
  s.admins.find? (fun a => a.username == username)

/-- Storage.ListChildren. -/
def Storage.ListChildren (s : Storage) : List Child :=
  s.children

/-- Storage.GetChild. -/
def Storage.GetChild (s : Storage) (id : String) : Option Child :=
  s.children.find? (fun c => c.id == id)

/-- Storage.GetChildByUsername. -/
def Storage.GetChildByUsername (s : Storage) (username : String) : Option Child :=
  s.children.find? (fun c => c.username == username)

/-- Storage.SaveChild: update the first child with the same ID or append. -/
def Storage.SaveChild (s : Storage) (child : Child) : Storage :=
  { s with children := upsertBy Child.id child s.children }

/-- Storage.ListSessions: only sessions whose active flag is set are
returned (the Go loop appends exactly the active ones). -/
def Storage.ListSessions (s : Storage) : List Session :=
  s.sessions.filter (fun sess => sess.isActive)

/-- Storage.GetSession. -/
def Storage.GetSession (s : Storage) (id : String) : Option Session :=
  s.sessions.find? (fun sess => sess.id == id)

/-- Storage.GetSessionByMAC: first active session with the given MAC. -/
def Storage.GetSessionByMAC (s : Storage) (mac : String) : Option Session :=
  s.sessions.find? (fun sess => sess.mac == mac && sess.isActive)

/-- Storage.SaveSession: update the first session with the same ID or append. -/
def Storage.SaveSession (s : Storage) (session : Session) : Storage :=
  { s with sessions := upsertBy Session.id session s.sessions }

/-- Storage.GetSchedule. -/
def Storage.GetSchedule (s : Storage) (id : String) : Option Schedule :=
  s.schedules.find? (fun sched => sched.id == id)

/-- Storage.ResetDailyQuotas: zero every child's used-today counter and
stamp the reset date, then persist the whole children collection. -/
def Storage.ResetDailyQuotas (s : Storage) (dateStr : String) : Storage :=
  { s with children :=
      s.children.map (fun c => { c with usedTodayMin := 0, lastResetDate := dateStr }) }

/-- Storage.ClearInactiveSessions: keep only the active sessions. -/
def Storage.ClearInactiveSessions (s : Storage) : Storage :=
  { s with sessions := s.sessions.filter (fun sess => sess.isActive) }

/-- AuthService.AuthenticateChild (services/auth.go): look the child up by
username, check the bcrypt password, reject disabled accounts.  The
bcrypt comparison is the external `checkPassword password hash`. -/
def AuthenticateChild (checkPassword : String → String → Bool) (s : Storage)
    (username password : String) : Except String Child :=
  match s.GetChildByUsername username with
  | none => Except.error "user not found"
  | some child =>
    if !checkPassword password child.passwordHash then Except.error "invalid credentials"
    else if !child.isActive then Except.error "account is disabled"
    else Except.ok child

/-- AuthService.AuthenticateAdmin (services/auth.go): look the admin up by
username and check the bcrypt password. -/
def AuthenticateAdmin (checkPassword : String → String → Bool) (s : Storage)
    (username password : String) : Except String User :=
  match s.GetAdminByUsername username with
  | none => Except.error "invalid credentials"
  | some admin =>
    if !checkPassword password admin.passwordHash then Except.error "invalid credentials"
    else Except.ok admin

/-- One invocation of the external `ndsctl` tool (services/ndsctl.go).
The `failed` flag records whether the external command returned an
error; the Go callers in the core only log such failures. -/
inductive NDSCall where
  | auth (mac : String) (sessionMinutes uploadKbps downloadKbps : Int) (failed : Bool)
  | deauth (macOrIP : String) (failed : Bool)
deriving Repr, DecidableEq

/-- AuthRequest (the FAS handler's login form / JSON body). -/
structure AuthRequest where
  username : String
  password : String
  hid : String
  mac : String
  ip : String
  authdir : String
  originurl : String
deriving Repr, DecidableEq

/-- The observable response of HandleAuth: an error redirect back to the
portal with a message, a redirect to the origin URL, or the success
page showing the child's name and remaining minutes. -/
inductive AuthOutcome where
  | errorRedirect (message : String)
  | redirectToOrigin (url : String)
  | successPage (childName : String) (remainingMin : Int)
deriving Repr, DecidableEq

/-- Whether an outcome of HandleAuth is a successful login. -/
def AuthOutcome.isSuccess : AuthOutcome → Bool
  | AuthOutcome.errorRedirect _ => false
  | AuthOutcome.redirectToOrigin _ => true
  | AuthOutcome.successPage _ _ => true

/-- The result of one HandleAuth request: the updated store, the HTTP
response, and the `ndsctl` calls issued. -/
structure HandleAuthResult where
  store : Storage
  outcome : AuthOutcome
  calls : List NDSCall
deriving Repr, DecidableEq

/-- FASHandler.HandleAuth (the captive-portal credential submission
handler).  Explicit parameters stand for the ambient inputs of the Go
code: `checkPassword` for bcrypt, `authFails` for the error behaviour of
`ndsctl auth` (only logged), `now` for `time.Now()`, `dayOfWeek` and
`currentTime` for the instant used by `Schedule.IsAllowedNow`, and
`newSessionID` for the random `services.GenerateID()`.  The Go handler:
authenticate the child (any failure gives the generic error redirect);
reject when `RemainingMinutes() <= 0`; reject when the child's schedule
exists and disallows the instant; register an unknown device; save a new
active session; call `ndsctl auth` with the child's remaining minutes;
redirect to the origin URL when it is set and not the literal "null",
else show the success page. -/
def HandleAuth (checkPassword : String → String → Bool) (authFails : String → Bool)
    (st : Storage) (req : AuthRequest) (now : Nat) (dayOfWeek : Int) (currentTime : String)
    (newSessionID : String) : HandleAuthResult :=
  match AuthenticateChild checkPassword st req.username req.password with
  | Except.error _ =>
    { store := st, outcome := AuthOutcome.errorRedirect "Invalid username or password",
      calls := [] }
  | Except.ok child =>
    if child.RemainingMinutes ≤ 0 then
      { store := st, outcome := AuthOutcome.errorRedirect "No time remaining for today",
        calls := [] }
    else if child.scheduleID != "" &&
        (match st.GetSchedule child.scheduleID with
         | some schedule => !(schedule.IsAllowedNow dayOfWeek currentTime)
         | none => false) then
      { store := st,
        outcome := AuthOutcome.errorRedirect "Internet access not allowed at this time",
        calls := [] }
    else
      let discovered :=
        if !(child.HasDevice req.mac) then
          let c := child.AddDevice req.mac "Auto-discovered device" now
          (c, st.SaveChild c)
        else (child, st)
      let child2 := discovered.1
      let st2 := discovered.2
      let session : Session :=
        { id := newSessionID, childID := child2.id, childName := child2.name,
          mac := req.mac, ip := req.ip, startedAt := now, lastTickAt := 0,
          isActive := true, sessionToken := "" }
      let st3 := st2.SaveSession session
      let remainingMin := child2.RemainingMinutes
      let outcome :=
        if req.originurl != "" && req.originurl != "null" then
          AuthOutcome.redirectToOrigin req.originurl
        else
          AuthOutcome.successPage child2.name remainingMin
      { store := st3, outcome := outcome,
        calls := [NDSCall.auth req.mac remainingMin 0 0 (authFails req.mac)] }

/-- SessionTicker: elapsed whole minutes since the session's last tick, or
since its start when it never ticked (the Go test `LastTickAt.IsZero()`).
Go computes `int(now.Sub(x).Minutes())`; see the module comment on the
Nat model of time. -/
def minutesToAdd (session : Session) (now : Nat) : Nat :=
  if session.lastTickAt == 0 then (now - session.startedAt) / 60
  else (now - session.lastTickAt) / 60

/-- SessionTicker.deauthSession: attempt `ndsctl deauth` (a failure,
recorded by `deauthFails`, is only logged), then mark the session
inactive and save it — unconditionally. -/
def deauthSession (deauthFails : String → Bool) (st : Storage) (session : Session) :
    Storage × List NDSCall :=
  (st.SaveSession { session with isActive := false },
   [NDSCall.deauth session.mac (deauthFails session.mac)])

/-- One iteration of the per-session loop in SessionTicker.tick: skip
already-inactive sessions; deauthorize sessions whose child was deleted;
accrue elapsed whole minutes into the child and advance the session's
last tick only when at least one minute elapsed; then deauthorize when
the quota is reached or the child's schedule disallows the instant. -/
def processSession (deauthFails : String → Bool) (now : Nat) (dayOfWeek : Int)
    (currentTime : String) (acc : Storage × List NDSCall) (session : Session) :
    Storage × List NDSCall :=
  let st := acc.1
  let calls := acc.2
  if !session.isActive then (st, calls)
  else
    match st.GetChild session.childID with
    | none =>
      let r := deauthSession deauthFails st session
      (r.1, calls ++ r.2)
    | some child =>
      let m := minutesToAdd session now
      let step :=
        if m > 0 then
          let c := { child with usedTodayMin := child.usedTodayMin + (m : Int), updatedAt := now }
          let s2 := { session with lastTickAt := now }
          (c, s2, (st.SaveChild c).SaveSession s2)
        else (child, session, st)
      let child2 := step.1
      let session2 := step.2.1
      let st2 := step.2.2
      if child2.usedTodayMin ≥ child2.dailyQuotaMin then
        let r := deauthSession deauthFails st2 session2
        (r.1, calls ++ r.2)
      else if child2.scheduleID != "" &&
          (match st2.GetSchedule child2.scheduleID with
           | some schedule => !(schedule.IsAllowedNow dayOfWeek currentTime)
           | none => false) then
        let r := deauthSession deauthFails st2 session2
        (r.1, calls ++ r.2)
      else (st2, calls)

/-- SessionTicker.checkDailyReset: when any child's last reset date is not
today, reset all children (Go sets `needsReset` at the first stale child,
which is `List.any`). -/
def checkDailyReset (st : Storage) (todayStr : String) : Storage :=
  if st.ListChildren.any (fun c => c.lastResetDate != todayStr) then
    st.ResetDailyQuotas todayStr
  else st

/-- SessionTicker.tick: one reconciliation cycle.  `todayStr` stands for
`now.Format("2006-01-02")` and `dayOfWeek`/`currentTime` for the instant
used by schedule evaluation.  The Go loop walks the snapshot returned by
ListSessions; every write goes back through the store, which the fold
threads through `processSession`. -/
def tick (deauthFails : String → Bool) (st : Storage) (now : Nat) (todayStr : String)
    (dayOfWeek : Int) (currentTime : String) : Storage × List NDSCall :=
  let st1 := checkDailyReset st todayStr
  (st1.ListSessions).foldl (processSession deauthFails now dayOfWeek currentTime) (st1, [])

/-- Value of a character in the standard base64 alphabet
(`A-Z a-z 0-9 + /`), `none` for anything else, as in Go's
`encoding/base64` `StdEncoding`. -/
def base64CharValue (c : Char) : Option Nat :=
  let n := c.toNat
  if 65 ≤ n && n ≤ 90 then some (n - 65)
  else if 97 ≤ n && n ≤ 122 then some (n - 97 + 26)
  else if 48 ≤ n && n ≤ 57 then some (n - 48 + 52)
  else if n == 43 then some 62
  else if n == 47 then some 63
  else none

/-- Character of a 6-bit value in the standard base64 alphabet. -/
def base64Char (v : Nat) : Char :=
  if v < 26 then Char.ofNat (65 + v)
  else if v < 52 then Char.ofNat (97 + (v - 26))
  else if v < 62 then Char.ofNat (48 + (v - 52))
  else if v == 62 then '+'
  else '/'

/-- Standard base64 encoding of a byte list, with `=` padding, as in Go's
`base64.StdEncoding.EncodeToString`. -/
def base64EncodeGroups : List Nat → List Char
  | [] => []
  | [b1] =>
    [base64Char (b1 / 4), base64Char (b1 % 4 * 16), '=', '=']
  | [b1, b2] =>
    [base64Char (b1 / 4), base64Char (b1 % 4 * 16 + b2 / 16),
     base64Char (b2 % 16 * 4), '=']
  | b1 :: b2 :: b3 :: rest =>
    base64Char (b1 / 4) :: base64Char (b1 % 4 * 16 + b2 / 16) ::
      base64Char (b2 % 16 * 4 + b3 / 64) :: base64Char (b3 % 64) ::
      base64EncodeGroups rest

/-- Standard base64 decoding of a character list, as in Go's
`base64.StdEncoding.DecodeString`: the input must consist of whole
4-character groups over the standard alphabet, with `=` padding allowed
only at the very end; anything else is rejected. -/
def base64DecodeGroups : List Char → Option (List Nat)
  | [] => some []
  | [c1, c2, '=', '='] => do
    let v1 ← base64CharValue c1
    let v2 ← base64CharValue c2
    pure [v1 * 4 + v2 / 16]
  | [c1, c2, c3, '='] => do
    let v1 ← base64CharValue c1
    let v2 ← base64CharValue c2
    let v3 ← base64CharValue c3
    pure [v1 * 4 + v2 / 16, v2 % 16 * 16 + v3 / 4]
  | c1 :: c2 :: c3 :: c4 :: rest => do
    let v1 ← base64CharValue c1
    let v2 ← base64CharValue c2
    let v3 ← base64CharValue c3
    let v4 ← base64CharValue c4
    let tail ← base64DecodeGroups rest
    pure ((v1 * 4 + v2 / 16) :: (v2 % 16 * 16 + v3 / 4) :: (v3 % 4 * 64 + v4) :: tail)
  | _ => none

/-- Go's `base64.StdEncoding.EncodeToString` on the UTF-8 bytes of an
ASCII string (for ASCII text the bytes are the character codes). -/
def base64EncodeString (s : String) : String :=
  String.mk (base64EncodeGroups (s.data.map Char.toNat))

/-- Go's `base64.StdEncoding.DecodeString`, the decoded bytes read back
as an ASCII string. -/
def base64DecodeString (s : String) : Option String :=
  (base64DecodeGroups s.data).map (fun bs => String.mk (bs.map Char.ofNat))

/-- FASData (the decoded FAS parameter set of the handler). -/
structure FASData where
  hid : String
  clientIP : String
  clientMAC : String
  gatewayName : String
  gatewayHash : String
  authDir : String
  originURL : String
deriving Repr, DecidableEq

/-- The zero value of FASData (all fields empty). -/
def emptyFASData : FASData :=
  { hid := "", clientIP := "", clientMAC := "", gatewayName := "", gatewayHash := "",
    authDir := "", originURL := "" }

/-- Go's `strings.Split(data, ", ")`: greedy left-to-right split at every
occurrence of the two-character separator. -/
def splitCommaSpace (acc : List Char) : List Char → List (List Char)
  | [] => [acc.reverse]
  | ',' :: ' ' :: rest => acc.reverse :: splitCommaSpace [] rest
  | c :: rest => splitCommaSpace (c :: acc) rest

/-- Go's `strings.SplitN(pair, "=", 2)`: one part when there is no `=`,
otherwise the text before the first `=` and everything after it. -/
def splitEq2 (acc : List Char) : List Char → List (List Char)
  | [] => [acc.reverse]
  | '=' :: rest => [acc.reverse, rest]
  | c :: rest => splitEq2 (c :: acc) rest

/-- Go's `strings.TrimSpace` on ASCII text: drop whitespace from both
ends. -/
def trimSpace (l : List Char) : List Char :=
  ((l.dropWhile Char.isWhitespace).reverse.dropWhile Char.isWhitespace).reverse

/-- FASHandler.parseFASData: split the decoded payload on `", "`, split
each pair at the first `=` (pairs without `=` are skipped), trim both
parts, and assign the value to the field selected by the exact key. -/
def parseFASData (data : String) : FASData :=
  (splitCommaSpace [] data.data).foldl
    (fun fas pair =>
      match splitEq2 [] pair with
      | [k, v] =>
        let key := trimSpace k
        let value := String.mk (trimSpace v)
        if key == "hid".data then { fas with hid := value }
        else if key == "clientip".data then { fas with clientIP := value }
        else if key == "clientmac".data then { fas with clientMAC := value }
        else if key == "gatewayname".data then { fas with gatewayName := value }
        else if key == "gatewayhash".data then { fas with gatewayHash := value }
        else if key == "authdir".data then { fas with authDir := value }
        else if key == "originurl".data then { fas with originURL := value }
        else fas
      | _ => fas)
    emptyFASData

/-- The observable response of HandleFAS: a hard HTTP error (status and
message via the `Error` helper) or the redirect to the portal login page
carrying the parsed parameters. -/
inductive FASOutcome where
  | httpError (status : Nat) (message : String)
  | redirectPortal (fas : FASData)
deriving Repr, DecidableEq

/-- Whether a HandleFAS outcome is the portal redirect. -/
def FASOutcome.isPortalRedirect : FASOutcome → Bool
  | FASOutcome.httpError _ _ => false
  | FASOutcome.redirectPortal _ => true

/-- FASHandler.HandleFAS: reject a missing `fas` query parameter with
HTTP 400, attempt one standard base64 decode and reject a failure with
HTTP 400, otherwise parse the decoded payload and redirect to the portal
with the parsed parameters (the URL query-escaping of the redirect is
not modelled; the redirect carries the parsed field values). -/
def HandleFAS (fasParam : String) : FASOutcome :=
  if fasParam == "" then FASOutcome.httpError 400 "missing fas parameter"
  else
    match base64DecodeString fasParam with
    | none => FASOutcome.httpError 400 "invalid fas parameter"
    | some decoded => FASOutcome.redirectPortal (parseFASData decoded)

/-! Helper lemmas about the update-or-append shape shared by the save
methods of the store. -/

theorem find?_upsertBy {α : Type} (key : α → String) (a : α) (l : List α) :
    (upsertBy key a l).find? (fun x => key x == key a) = some a := by
  induction l with
  | nil => simp [upsertBy]
  | cons x xs ih =>
    by_cases h : key x = key a
    · simp [upsertBy, h]
    · simp only [upsertBy, beq_iff_eq, if_neg h]
      rw [List.find?_cons_of_neg _ (by simpa using h)]
      exact ih

theorem upsertBy_of_fresh {α : Type} (key : α → String) (a : α) (l : List α)
    (h : ∀ x ∈ l, key x ≠ key a) : upsertBy key a l = l ++ [a] := by
  induction l with
  | nil => rfl
  | cons x xs ih =>
    simp only [upsertBy, beq_iff_eq, if_neg (h x (List.mem_cons_self x xs))]
    rw [ih (fun y hy => h y (List.mem_cons_of_mem x hy))]
    rfl

theorem getChild_saveChild (st : Storage) (c : Child) :
    (st.SaveChild c).GetChild c.id = some c :=
  find?_upsertBy Child.id c st.children

theorem getSession_saveSession (st : Storage) (s : Session) :
    (st.SaveSession s).GetSession s.id = some s :=
  find?_upsertBy Session.id s st.sessions

theorem getChild_saveSession (st : Storage) (s : Session) (i : String) :
    (st.SaveSession s).GetChild i = st.GetChild i := rfl

theorem getSession_saveChild (st : Storage) (c : Child) (i : String) :
    (st.SaveChild c).GetSession i = st.GetSession i := rfl

theorem any_filter_of_false {α : Type} (f g : α → Bool)
    (h : ∀ a, g a = false → f a = false) :
    ∀ l : List α, (l.filter g).any f = l.any f := by
  intro l
  induction l with
  | nil => rfl
  | cons x xs ih =>
    by_cases hg : g x = true
    · simp [List.filter_cons, hg, ih]
    · have hgf : g x = false := Bool.eq_false_iff.mpr hg
      simp [List.filter_cons, hgf, h x hgf, ih]

/-- Claim C10: Storage.ListSessions returns exactly the stored session
records whose active flag is true; inactive sessions stay in the store
and are exactly what Storage.ClearInactiveSessions drops (it keeps
exactly the active records). -/
theorem claim_C10 : ∀ (st : Storage) (sess : Session),
    (sess ∈ st.ListSessions ↔ sess ∈ st.sessions ∧ sess.isActive = true)
    ∧ (sess ∈ (st.ClearInactiveSessions).sessions ↔
        sess ∈ st.sessions ∧ sess.isActive = true) := by
  intro st sess
  constructor
  · simp [Storage.ListSessions, List.mem_filter]
  · simp [Storage.ClearInactiveSessions, List.mem_filter]

/-- Claim C4: checkDailyReset is a global reset: when some child's last
reset date differs from today, every child's used-today counter becomes
0 and every child's last reset date becomes today; when no child is
stale the store is left entirely unchanged. -/
theorem claim_C4 : ∀ (st : Storage) (todayStr : String),
    checkDailyReset st todayStr =
      if ∃ c ∈ st.children, c.lastResetDate ≠ todayStr then
        { st with children :=
            st.children.map (fun c => { c with usedTodayMin := 0, lastResetDate := todayStr }) }
      else st := by
  intro st todayStr
  by_cases h : ∃ c ∈ st.children, c.lastResetDate ≠ todayStr
  · rw [if_pos h]
    have hany : st.ListChildren.any (fun c => c.lastResetDate != todayStr) = true := by
      simp only [Storage.ListChildren, List.any_eq_true, bne_iff_ne]
      exact h
    simp [checkDailyReset, hany, Storage.ResetDailyQuotas]
  · rw [if_neg h]
    have hany : st.ListChildren.any (fun c => c.lastResetDate != todayStr) = false := by
      simp only [Storage.ListChildren, List.any_eq_false, bne_iff_ne, ne_eq, not_not]
      intro c hc
      by_contra hne
      exact h ⟨c, hc, hne⟩
    simp [checkDailyReset, hany]

/-- Claim C6: Schedule.IsAllowedNow holds at an instant exactly when some
time block matches the instant's weekday and the instant's time string
lies between the block's start and end, both boundaries inclusive, under
lexicographic string comparison; and blocks whose end is lexicographically
before their start never influence the evaluation (filtering them out
changes nothing), so such a block never matches any instant. -/
theorem claim_C6 : ∀ (s : Schedule) (d : Int) (t : String),
    (s.IsAllowedNow d t = true ↔
      ∃ b ∈ s.timeBlocks, b.dayOfWeek = d ∧ b.startTime ≤ t ∧ t ≤ b.endTime)
    ∧ s.IsAllowedNow d t =
        Schedule.IsAllowedNow
          { s with timeBlocks := s.timeBlocks.filter (fun b => decide (b.startTime ≤ b.endTime)) }
          d t := by
  intro s d t
  constructor
  · simp [Schedule.IsAllowedNow, List.any_eq_true, and_assoc]
  · show s.timeBlocks.any _ = (s.timeBlocks.filter _).any _
    rw [any_filter_of_false]
    intro b hb
    have hlt : ¬ (b.startTime ≤ b.endTime) := by simpa using hb
    have hfalse : ¬ (b.startTime ≤ t ∧ t ≤ b.endTime) := by
      rintro ⟨h1, h2⟩
      exact hlt (le_trans h1 h2)
    simp only [Bool.and_eq_false_iff, decide_eq_false_iff_not]
    rcases Classical.em (b.startTime ≤ t) with h1 | h1
    · exact Or.inr (Or.inr fun h2 => hfalse ⟨h1, h2⟩)
    · exact Or.inr (Or.inl h1)

/-! Concrete inputs used by counterexamples and witnesses. -/

/-- The handshake payload of the round-trip scenario in the spec. -/
def fasPayloadW : String :=
  "clientmac=AA:BB:CC:DD:EE:FF, clientip=10.0.0.5, originurl=http://example.com/(null)"

/-- A concrete stand-in for the bcrypt check: the stored hash is the
password itself. -/
def cpW : String → String → Bool := fun p h => p == h

/-- A concrete `ndsctl auth` error behaviour: never fails. -/
def afW : String → Bool := fun _ => false

/-- A concrete `ndsctl deauth` error behaviour: never fails. -/
def deW : String → Bool := fun _ => false

/-- A demo child with a 120-minute quota and nothing used today. -/
def childW : Child :=
  { id := "c1", username := "kid", passwordHash := "pw", name := "Kid",
    dailyQuotaMin := 120, usedTodayMin := 0, filterMode := "normal", scheduleID := "",
    devices := [], lastResetDate := "2026-10-11", isActive := true,
    createdAt := 0, updatedAt := 0 }

/-- A demo store holding only `childW`. -/
def stW : Storage :=
  { admins := [], children := [childW], sessions := [], schedules := [], filters := [] }

/-- A demo login request for `childW` from one MAC. -/
def reqW : AuthRequest :=
  { username := "kid", password := "pw", hid := "h", mac := "aa:bb:cc:dd:ee:ff",
    ip := "10.0.0.5", authdir := "", originurl := "" }

/-- First login of the demo child. -/
def r1W : HandleAuthResult := HandleAuth cpW afW stW reqW 100 1 "10:00" "s1"

/-- Second login of the demo child, same MAC, on the store left by the
first login. -/
def r2W : HandleAuthResult := HandleAuth cpW afW r1W.store reqW 200 1 "10:00" "s2"

/-- A demo child with quota 10 and 9 minutes used, owning two sessions. -/
def childX : Child :=
  { id := "X", username := "x", passwordHash := "pw", name := "Xk",
    dailyQuotaMin := 10, usedTodayMin := 9, filterMode := "normal", scheduleID := "",
    devices := [], lastResetDate := "2026-10-11", isActive := true,
    createdAt := 0, updatedAt := 0 }

/-- A session of `childX` that last ticked at the current instant
(no minutes elapse for it in the demo tick). -/
def sessA : Session :=
  { id := "A", childID := "X", childName := "Xk", mac := "m1", ip := "ip1",
    startedAt := 0, lastTickAt := 1000, isActive := true, sessionToken := "" }

/-- A session of `childX` that last ticked 300 seconds before the demo
tick (5 whole minutes elapse for it). -/
def sessB : Session :=
  { id := "B", childID := "X", childName := "Xk", mac := "m2", ip := "ip2",
    startedAt := 0, lastTickAt := 700, isActive := true, sessionToken := "" }

/-- A demo store where `childX` owns the two active sessions `sessA` and
`sessB`. -/
def stX : Storage :=
  { admins := [], children := [childX], sessions := [sessA, sessB],
    schedules := [], filters := [] }

/-- A demo admin user. -/
def adminW : User :=
  { id := "a1", username := "admin", passwordHash := "apw",
    displayName := "Administrator", role := "super", forcePasswordChange := false,
    createdAt := 0, updatedAt := 0 }

/-- A demo store holding only the admin `adminW` and no children. -/
def stAdminW : Storage :=
  { admins := [adminW], children := [], sessions := [], schedules := [], filters := [] }

/-- A captive-portal credential submission carrying the admin's valid
credentials. -/
def reqAdminW : AuthRequest :=
  { username := "admin", password := "apw", hid := "h", mac := "aa:bb:cc:dd:ee:ff",
    ip := "10.0.0.5", authdir := "", originurl := "" }

/-- Claim C7 fails on the code: decoding the encoded payload gives back
the raw payload, and parsing leaves the MAC exactly as submitted
(uppercase, not canonicalized) and keeps the literal "(null)" artifact
in the origin URL, contradicting the claimed normalized values. -/
theorem claim_C7_counterexample :
    base64DecodeString (base64EncodeString fasPayloadW) = some fasPayloadW
    ∧ (parseFASData fasPayloadW).clientMAC = "AA:BB:CC:DD:EE:FF"
    ∧ (parseFASData fasPayloadW).clientMAC ≠ "aa:bb:cc:dd:ee:ff"
    ∧ (parseFASData fasPayloadW).originURL = "http://example.com/(null)"
    ∧ (parseFASData fasPayloadW).originURL ≠ "http://example.com/" := by
  refine ⟨by decide, by decide, by decide, by decide, by decide⟩

/-- Claim C7 amended: the round trip through encoding, decoding and
parsing yields ClientMAC "AA:BB:CC:DD:EE:FF" exactly as submitted (no
lowercase canonicalization), ClientIP "10.0.0.5", and OriginURL
"http://example.com/(null)" with the "(null)" artifact retained (no
cleaning pass exists in the handler). -/
theorem claim_C7_amended :
    base64DecodeString (base64EncodeString fasPayloadW) = some fasPayloadW
    ∧ parseFASData fasPayloadW =
        { emptyFASData with
          clientIP := "10.0.0.5"
          clientMAC := "AA:BB:CC:DD:EE:FF"
          originURL := "http://example.com/(null)" } := by
  refine ⟨by decide, by decide⟩

/-- Claim C8 fails on the code: an absent fas payload produces the hard
HTTP 400 error "missing fas parameter" rather than a login redirect, and
a payload using the URL-safe base64 alphabet is rejected with HTTP 400
"invalid fas parameter" because only one strict standard decode is
attempted. -/
theorem claim_C8_counterexample :
    HandleFAS "" = FASOutcome.httpError 400 "missing fas parameter"
    ∧ (HandleFAS "").isPortalRedirect = false
    ∧ HandleFAS "a-b_" = FASOutcome.httpError 400 "invalid fas parameter" := by
  refine ⟨by decide, by decide, by decide⟩

/-- Claim C8 amended: the FAS entry endpoint answers with a hard HTTP
error, not a redirect, exactly when the payload is absent or the single
standard base64 decode fails (there is no space-to-plus, padding-fixing,
URL-safe or unpadded fallback); an absent payload gives HTTP 400
"missing fas parameter". -/
theorem claim_C8_amended : ∀ p : String,
    ((HandleFAS p).isPortalRedirect = false ↔ (p = "" ∨ base64DecodeString p = none))
    ∧ HandleFAS "" = FASOutcome.httpError 400 "missing fas parameter" := by
  intro p
  refine ⟨?_, rfl⟩
  by_cases hp : p = ""
  · subst hp
    simp [HandleFAS, FASOutcome.isPortalRedirect]
  · cases hdec : base64DecodeString p with
    | none => simp [HandleFAS, hp, hdec, FASOutcome.isPortalRedirect]
    | some d => simp [HandleFAS, hp, hdec, FASOutcome.isPortalRedirect]

/-- Claim C1 fails on the code: two sequential successful logins for the
same MAC leave two active session records for that MAC in the store —
HandleAuth never deactivates a prior active session. -/
theorem claim_C1_counterexample :
    r1W.outcome = AuthOutcome.successPage "Kid" 120
    ∧ r2W.outcome = AuthOutcome.successPage "Kid" 120
    ∧ (r2W.store.sessions.filter (fun s => s.mac == reqW.mac && s.isActive)).length = 2
    ∧ ¬ ((r2W.store.sessions.filter
          (fun s => s.mac == reqW.mac && s.isActive)).length ≤ 1) := by
  refine ⟨by decide, by decide, by decide, by decide⟩

/-- Claim C1 amended: HandleAuth does not deactivate any prior session:
every successful login with a fresh session id appends one more active
session record for the submitted MAC, so two sequential successful
logins for the same MAC leave two active sessions for it, not at most
one. -/
theorem claim_C1_amended :
    ∀ (cp : String → String → Bool) (af : String → Bool) (st : Storage)
      (req : AuthRequest) (now : Nat) (d : Int) (ct : String) (sid : String),
    (∀ s ∈ st.sessions, s.id ≠ sid) →
    (HandleAuth cp af st req now d ct sid).outcome.isSuccess = true →
    ((HandleAuth cp af st req now d ct sid).store.sessions.filter
        (fun s => s.mac == req.mac && s.isActive)).length
      = (st.sessions.filter (fun s => s.mac == req.mac && s.isActive)).length + 1 := by
  intro cp af st req now d ct sid hfresh hsucc
  unfold HandleAuth at *
  cases hauth : AuthenticateChild cp st req.username req.password with
  | error e =>
    rw [hauth] at hsucc
    simp [AuthOutcome.isSuccess] at hsucc
  | ok child =>
    rw [hauth] at hsucc
    dsimp only at hsucc ⊢
    by_cases hrem : child.RemainingMinutes ≤ 0
    · rw [if_pos hrem] at hsucc
      simp [AuthOutcome.isSuccess] at hsucc
    · rw [if_neg hrem] at hsucc ⊢
      by_cases hsched : (child.scheduleID != "" &&
          (match st.GetSchedule child.scheduleID with
           | some schedule => !(schedule.IsAllowedNow d ct)
           | none => false)) = true
      · rw [if_pos hsched] at hsucc
        simp [AuthOutcome.isSuccess] at hsucc
      · rw [if_neg hsched]
        dsimp only
        have hsessions :
            (if !(child.HasDevice req.mac) then
              (child.AddDevice req.mac "Auto-discovered device" now,
               st.SaveChild (child.AddDevice req.mac "Auto-discovered device" now))
             else (child, st)).2.sessions = st.sessions := by
          by_cases hdev : child.HasDevice req.mac
          · simp [hdev]
          · simp [Bool.eq_false_iff.mpr hdev, Storage.SaveChild]
        simp only [Storage.SaveSession]
        rw [hsessions]
        rw [upsertBy_of_fresh Session.id _ st.sessions (fun x hx => hfresh x hx)]
        rw [List.filter_append]
        simp

/-- Claim C1 witness: the amended theorem applied to the demo store at
its first login. -/
theorem claim_C1_witness :
    ((HandleAuth cpW afW stW reqW 100 1 "10:00" "s1").store.sessions.filter
        (fun s => s.mac == reqW.mac && s.isActive)).length
      = (stW.sessions.filter (fun s => s.mac == reqW.mac && s.isActive)).length + 1 :=
  claim_C1_amended cpW afW stW reqW 100 1 "10:00" "s1"
    (by intro s hs; simp [stW] at hs) (by decide)

/-- Claim C9 fails on the code: with a store holding an administrator
whose credentials the submission carries (and no child of that name),
AuthenticateAdmin would accept, yet HandleAuth answers with the generic
invalid-credentials error redirect and performs no controller call — the
handler never attempts administrator authentication. -/
theorem claim_C9_counterexample :
    AuthenticateAdmin cpW stAdminW "admin" "apw" = Except.ok adminW
    ∧ (HandleAuth cpW afW stAdminW reqAdminW 0 1 "10:00" "s9").outcome
        = AuthOutcome.errorRedirect "Invalid username or password"
    ∧ (HandleAuth cpW afW stAdminW reqAdminW 0 1 "10:00" "s9").calls = [] := by
  refine ⟨rfl, by decide, by decide⟩

/-- Claim C9 amended: the captive-portal credential handler attempts only
child authentication: its outcome and its controller calls are
independent of the administrator store, and a username matching no child
yields the generic invalid-credentials redirect with no controller call,
even when the submission carries valid administrator credentials. -/
theorem claim_C9_amended :
    ∀ (cp : String → String → Bool) (af : String → Bool) (st : Storage)
      (admins2 : List User) (req : AuthRequest) (now : Nat) (d : Int) (ct : String)
      (sid : String),
    ((HandleAuth cp af { st with admins := admins2 } req now d ct sid).outcome
        = (HandleAuth cp af st req now d ct sid).outcome
      ∧ (HandleAuth cp af { st with admins := admins2 } req now d ct sid).calls
        = (HandleAuth cp af st req now d ct sid).calls)
    ∧ (st.GetChildByUsername req.username = none →
        HandleAuth cp af st req now d ct sid
          = { store := st
              outcome := AuthOutcome.errorRedirect "Invalid username or password"
              calls := [] }) := by
  intro cp af st admins2 req now d ct sid
  have hac : AuthenticateChild cp { st with admins := admins2 } req.username req.password
      = AuthenticateChild cp st req.username req.password := rfl
  have hgs : Storage.GetSchedule { st with admins := admins2 } = st.GetSchedule := rfl
  constructor
  · unfold HandleAuth
    rw [hac, hgs]
    cases AuthenticateChild cp st req.username req.password with
    | error e => exact ⟨rfl, rfl⟩
    | ok child =>
      by_cases hrem : child.RemainingMinutes ≤ 0
      · simp only [if_pos hrem]
        constructor <;> trivial
      · simp only [if_neg hrem]
        by_cases hsched : (child.scheduleID != "" &&
            (match st.GetSchedule child.scheduleID with
             | some schedule => !(schedule.IsAllowedNow d ct)
             | none => false)) = true
        · simp only [if_pos hsched]
          constructor <;> trivial
        · simp only [if_neg hsched]
          by_cases hdev : child.HasDevice req.mac <;>
            simp [hdev]
  · intro hnone
    unfold HandleAuth AuthenticateChild
    rw [hnone]

/-- Claim C9 witness: the amended theorem applied to the demo admin-only
store, whose username matches no child. -/
theorem claim_C9_witness :
    HandleAuth cpW afW stAdminW reqAdminW 0 1 "10:00" "s9"
      = { store := stAdminW
          outcome := AuthOutcome.errorRedirect "Invalid username or password"
          calls := [] } :=
  (claim_C9_amended cpW afW stAdminW [] reqAdminW 0 1 "10:00" "s9").2 (by decide)

theorem remainingMinutes_addDevice (c : Child) (mac name : String) (now : Nat) :
    (c.AddDevice mac name now).RemainingMinutes = c.RemainingMinutes := by
  unfold Child.AddDevice
  split <;> rfl

/-- Claim C2: whenever HandleAuth issues an `ndsctl auth` call, its
session-minutes argument equals the authenticated child's
RemainingMinutes() and is strictly positive — a login with no remaining
time was already rejected before the call, so the 0-means-unlimited
convention of the external tool is never hit by a child login. -/
theorem claim_C2 :
    ∀ (cp : String → String → Bool) (af : String → Bool) (st : Storage)
      (req : AuthRequest) (now : Nat) (d : Int) (ct : String) (sid : String)
      (mac : String) (mins up down : Int) (fl : Bool),
    NDSCall.auth mac mins up down fl ∈ (HandleAuth cp af st req now d ct sid).calls →
    0 < mins ∧ ∃ child, AuthenticateChild cp st req.username req.password = Except.ok child
      ∧ mins = child.RemainingMinutes := by
  intro cp af st req now d ct sid mac mins up down fl hmem
  unfold HandleAuth at hmem
  cases hauth : AuthenticateChild cp st req.username req.password with
  | error e =>
    rw [hauth] at hmem
    simp at hmem
  | ok child =>
    rw [hauth] at hmem
    dsimp only at hmem
    by_cases hrem : child.RemainingMinutes ≤ 0
    · rw [if_pos hrem] at hmem
      simp at hmem
    · rw [if_neg hrem] at hmem
      by_cases hsched : (child.scheduleID != "" &&
          (match st.GetSchedule child.scheduleID with
           | some schedule => !(schedule.IsAllowedNow d ct)
           | none => false)) = true
      · rw [if_pos hsched] at hmem
        simp at hmem
      · rw [if_neg hsched] at hmem
        by_cases hdev : child.HasDevice req.mac
        · simp [hdev] at hmem
          obtain ⟨hmac, hmins, hup, hdown, hfl⟩ := hmem
          refine ⟨?_, child, rfl, hmins⟩
          rw [hmins]
          omega
        · simp [hdev, remainingMinutes_addDevice] at hmem
          obtain ⟨hmac, hmins, hup, hdown, hfl⟩ := hmem
          refine ⟨?_, child, rfl, hmins⟩
          rw [hmins]
          omega

/-- Claim C2 witness: the theorem applied to the demo store's login,
whose single `ndsctl auth` call carries 120 minutes. -/
theorem claim_C2_witness :
    0 < (120 : Int)
    ∧ ∃ child, AuthenticateChild cpW stW reqW.username reqW.password = Except.ok child
        ∧ (120 : Int) = child.RemainingMinutes :=
  claim_C2 cpW afW stW reqW 100 1 "10:00" "s1" "aa:bb:cc:dd:ee:ff" 120 0 0 false
    (by decide)

theorem getSession_saveSession2 (st : Storage) (s2 : Session) (i : String)
    (h : s2.id = i) : (st.SaveSession s2).GetSession i = some s2 := by
  subst h
  exact getSession_saveSession st s2

theorem getChild_saveChild2 (st : Storage) (c2 : Child) (i : String)
    (h : c2.id = i) : (st.SaveChild c2).GetChild i = some c2 := by
  subst h
  exact getChild_saveChild st c2

theorem deauthSession_fst (de : String → Bool) (st : Storage) (s : Session) :
    (deauthSession de st s).1 = st.SaveSession { s with isActive := false } := rfl

/-- Claim C3: when a tick processes an active session whose child exists,
the minutes added to the child's used-today counter are exactly the
whole-minute floor of the time elapsed since the session's last tick (or
since its start when it never ticked); when that floor is 0 neither the
child's usage nor the session's last-tick time changes, and when it is
at least 1 the session's last-tick time becomes now — fractional time is
never dropped, it stays measured from the unchanged last-tick time. -/
theorem claim_C3 :
    ∀ (de : String → Bool) (now : Nat) (d : Int) (ct : String) (st : Storage)
      (calls0 : List NDSCall) (sess : Session) (child : Child),
    sess.isActive = true →
    st.GetChild sess.childID = some child →
    st.GetSession sess.id = some sess →
    ((processSession de now d ct (st, calls0) sess).1.GetChild sess.childID).map
        Child.usedTodayMin
      = some (child.usedTodayMin + (minutesToAdd sess now : Int))
    ∧ ((processSession de now d ct (st, calls0) sess).1.GetSession sess.id).map
        Session.lastTickAt
      = some (if minutesToAdd sess now = 0 then sess.lastTickAt else now) := by
  intro de now d ct st calls0 sess child hact hchild hsess
  have hcid : child.id = sess.childID := by
    have h1 : st.children.find? (fun c => c.id == sess.childID) = some child := hchild
    have h2 := List.find?_some h1
    simpa using h2
  unfold processSession
  simp only [hact, Bool.not_true, Bool.false_eq_true, if_false, hchild]
  rcases Nat.eq_zero_or_pos (minutesToAdd sess now) with hmz | hmp
  · simp only [hmz, gt_iff_lt, lt_self_iff_false, if_false, Nat.cast_zero, add_zero]
    split_ifs with hq hs
    · simp [deauthSession, getChild_saveSession, getSession_saveSession2, hchild, hsess]
    · simp [deauthSession, getChild_saveSession, getSession_saveSession2, hchild, hsess]
    · simp [hchild, hsess]
  · have hne : minutesToAdd sess now ≠ 0 := Nat.pos_iff_ne_zero.mp hmp
    rw [if_pos hmp]
    dsimp only
    rw [if_neg hne]
    split_ifs with hq hs
    · simp [deauthSession, getChild_saveSession, getSession_saveChild,
        getSession_saveSession2, getChild_saveChild2, hcid]
    · simp [deauthSession, getChild_saveSession, getSession_saveChild,
        getSession_saveSession2, getChild_saveChild2, hcid]
    · simp [getChild_saveSession, getSession_saveChild, getSession_saveSession2,
        getChild_saveChild2, hcid]

/-- Claim C3 witness: the theorem applied to the demo session that last
ticked 300 seconds (5 whole minutes) before the tick instant. -/
theorem claim_C3_witness :
    ((processSession deW 1000 1 "10:00" (stX, []) sessB).1.GetChild "X").map
        Child.usedTodayMin = some 14
    ∧ ((processSession deW 1000 1 "10:00" (stX, []) sessB).1.GetSession "B").map
        Session.lastTickAt = some 1000 := by
  have h := claim_C3 deW 1000 1 "10:00" stX [] sessB childX rfl (by decide) (by decide)
  simpa using h

/-- Claim C5 fails on the code: in a tick over two sessions of the same
child (quota 10, used 9), the first session is processed while the child
is still under quota and stays active; the second session then accrues 5
minutes, pushing the shared child to 14 of 10 — after the tick completes,
the first session is still active although its owning child's used
minutes now reach the quota. -/
theorem claim_C5_counterexample :
    ((tick deW stX 1000 "2026-10-11" 1 "10:00").1.GetSession "A").map Session.isActive
        = some true
    ∧ ((tick deW stX 1000 "2026-10-11" 1 "10:00").1.GetSession "A").map Session.childID
        = some "X"
    ∧ ((tick deW stX 1000 "2026-10-11" 1 "10:00").1.GetChild "X").map Child.usedTodayMin
        = some 14
    ∧ ((tick deW stX 1000 "2026-10-11" 1 "10:00").1.GetChild "X").map Child.dailyQuotaMin
        = some 10
    ∧ (10 : Int) ≤ 14 := by
  refine ⟨by decide, by decide, by decide, by decide, by decide⟩

/-- Claim C5 amended: when a tick processes an active session whose
owning child's used minutes (after this session's accrual) reach the
daily quota, that session is marked inactive in the store and a
deauthorize call for its MAC is attempted, and the resulting store does
not depend on whether the deauthorize call fails; a session of the same
child processed earlier in the tick, while the child was still under
quota, can remain active until the next tick. -/
theorem claim_C5_amended :
    ∀ (de : String → Bool) (now : Nat) (d : Int) (ct : String) (st : Storage)
      (calls0 : List NDSCall) (sess : Session) (child : Child),
    sess.isActive = true →
    st.GetChild sess.childID = some child →
    child.dailyQuotaMin ≤ child.usedTodayMin + (minutesToAdd sess now : Int) →
    ((processSession de now d ct (st, calls0) sess).1.GetSession sess.id).map
        Session.isActive = some false
    ∧ NDSCall.deauth sess.mac (de sess.mac) ∈ (processSession de now d ct (st, calls0) sess).2
    ∧ (processSession de now d ct (st, calls0) sess).1
        = (processSession (fun _ => false) now d ct (st, calls0) sess).1 := by
  intro de now d ct st calls0 sess child hact hchild hquota
  unfold processSession
  simp only [hact, Bool.not_true, Bool.false_eq_true, if_false, hchild]
  rcases Nat.eq_zero_or_pos (minutesToAdd sess now) with hmz | hmp
  · simp only [hmz, gt_iff_lt, lt_self_iff_false, if_false, Nat.cast_zero]
    have hq : child.usedTodayMin ≥ child.dailyQuotaMin := by
      rw [hmz] at hquota
      simpa using hquota
    simp only [if_pos hq]
    refine ⟨?_, ?_, ?_⟩
    · simp [deauthSession, getSession_saveSession2]
    · simp [deauthSession]
    · simp [deauthSession]
  · simp only [gt_iff_lt, if_pos hmp]
    have hq : child.usedTodayMin + (minutesToAdd sess now : Int) ≥ child.dailyQuotaMin :=
      hquota
    simp only [if_pos hq]
    refine ⟨?_, ?_, ?_⟩
    · simp [deauthSession, getSession_saveSession2]
    · simp [deauthSession]
    · simp [deauthSession]

/-- Claim C5 witness: the amended theorem applied to the demo session
that pushes its child past the quota (9 used + 5 accrued over quota 10),
with a deauthorize behaviour that never fails. -/
theorem claim_C5_witness :
    ((processSession deW 1000 1 "10:00" (stX, []) sessB).1.GetSession "B").map
        Session.isActive = some false
    ∧ NDSCall.deauth "m2" false ∈ (processSession deW 1000 1 "10:00" (stX, []) sessB).2
    ∧ (processSession deW 1000 1 "10:00" (stX, []) sessB).1
        = (processSession (fun _ => false) 1000 1 "10:00" (stX, []) sessB).1 := by
  have h := claim_C5_amended deW 1000 1 "10:00" stX [] sessB childX rfl (by decide) (by decide)
  simpa [deW] using h

end Parenta
